import Mathlib

/-!
# Tracy capture core: lock instrumentation and frame-size constants

A shallow embedding of `client/TracyLock.hpp` (the `Lockable<T>` wrapper) and
`common/TracyProtocol.hpp` (the frame-size constants and their static
assertions), followed by the properties proved about them.

Conventions of the embedding:
* `uint64_t` values are natural numbers; the one arithmetic operation on them,
  `s_lockCounter.fetch_add( 1 )`, reduces modulo `2 ^ 64`.
* `s_lockCounter` is declared `static` at namespace scope in the header, so
  every translation unit that includes the header has a counter of its own.
  Translation units are numbered, and the constructor uses the counter of the
  translation unit it is called from.
* Pointers cast to `uint64_t` (`srcloc`, `&m_lockable`) are natural numbers.
* The statements of every method are executed in source order on an explicit
  `World`; the world carries a ghost `history` that records, in the order they
  happen, the calls made on the wrapped resource, the clock readings and the
  publications to the queue.
-/

namespace tracy

/-! ## `common/TracyProtocol.hpp` -/

/-- Largest value of `lz4sz_t` (`using lz4sz_t = uint16_t`), that is
`std::numeric_limits<lz4sz_t>::max()`. -/
def lz4sz_max : Nat := 2 ^ 16 - 1

/-- Conversion of a length to `lz4sz_t`: a `uint16_t` keeps the low 16 bits. -/
def to_lz4sz (n : Nat) : Nat := n % 2 ^ 16

/-- The enumerator `TargetFrameSize = 64000`. -/
def TargetFrameSize : Nat := 64000

/-- Modelled from the spec: the macro `LZ4_COMPRESSBOUND` of the header
`tracy_lz4.hpp`, a header outside the two files embedded here. It is the LZ4 bound
`n + n/255 + 16` (integer division) for `n` not above the LZ4 maximum input
size, and `0` above it. The maximum input size is the parameter `maxInput`. -/
def LZ4_COMPRESSBOUND (maxInput isize : Nat) : Nat :=
  if isize > maxInput then 0 else isize + isize / 255 + 16

/-- The enumerator `LZ4Size = LZ4_COMPRESSBOUND( TargetFrameSize )`. -/
def LZ4Size (maxInput : Nat) : Nat := LZ4_COMPRESSBOUND maxInput TargetFrameSize

/-- First static assertion of the header:
`LZ4Size <= std::numeric_limits<lz4sz_t>::max()`. -/
def static_assert_LZ4Size (maxInput : Nat) : Bool :=
  decide (LZ4Size maxInput ≤ lz4sz_max)

/-- Second static assertion of the header:
`TargetFrameSize * 2 >= 64 * 1024`. -/
def static_assert_streamBuffer : Bool :=
  decide (TargetFrameSize * 2 ≥ 64 * 1024)

/-! ## Data model used by `client/TracyLock.hpp` -/

/-- Modelled from the spec: the tagged record `QueueItem` (declared in a header
outside the two files embedded here), restricted to the five variants the
lock wrapper writes. The constructor is the `hdr.type` tag, the arguments are
the fields of the corresponding union member. -/
inductive QueueItem where
  | lockAnnounce (id srcloc : Nat)
  | lockWait (id thread : Nat) (time : Int)
  | lockObtain (id thread : Nat) (time : Int)
  | lockRelease (id thread : Nat) (time : Int)
  | lockMark (id thread srcloc : Nat)
  deriving DecidableEq

/-- Ghost record of one externally visible effect. `resLock a`, `resUnlock a`
and `resTryLock a r` are calls on the wrapped resource stored at address `a`
(`r` is what `try_lock` returned); `clock t` is a reading of
`Profiler::GetTime`; `publish e` is the release store that makes `e` visible. -/
inductive Effect where
  | resLock (addr : Nat)
  | resUnlock (addr : Nat)
  | resTryLock (addr : Nat) (ret : Bool)
  | clock (t : Int)
  | publish (item : QueueItem)
  deriving DecidableEq

/-- What the producer's surroundings supply: the handle returned by
`GetThreadHandle()` on the producer's thread, and the successive values
returned by `Profiler::GetTime` (`GetTime k` is the reading number `k`). -/
structure Env where
  thread : Nat
  GetTime : Nat → Int

/-- The capability set required of the template parameter `T`: a default
constructed value and the three operations `lock`, `unlock`, `try_lock`. -/
structure Resource (σ : Type) where
  init : σ
  lock : σ → σ
  unlock : σ → σ
  try_lock : σ → Bool × σ

/-- The state shared by all wrappers of one producer: the counters
`s_lockCounter`, one for each translation unit (`s_lockCounter tu` is the
counter of translation unit `tu`), the slots of the producer token `s_token`
with its tail index, the number of clock readings taken so far, and the ghost
history. -/
structure World where
  s_lockCounter : Nat → Nat
  slots : List QueueItem
  tail : Nat
  clockReads : Nat
  history : List Effect

/-- Fresh state: `s_lockCounter( 0 )` in every translation unit, an empty
queue, nothing done yet. -/
def World.fresh : World :=
  { s_lockCounter := fun _ => 0, slots := [], tail := 0, clockReads := 0, history := [] }

/-- The items the consumer can see: the slots below the published tail. -/
def World.published (w : World) : List QueueItem := w.slots.take w.tail

/-- An instance of `Lockable<T>`: the members `m_lockable` and `m_id`, and the
address `(uint64_t)&m_lockable` at which the member lives. -/
structure Lockable (σ : Type) where
  m_lockable : σ
  m_id : Nat
  addr : Nat

/-! ## Primitive steps -/

/-- The call `s_lockCounter.fetch_add( n, relaxed )` made in translation unit
`tu`: returns the old value of the counter of that unit and stores the sum,
reduced to 64 bits; the counters of the other units are untouched. -/
def fetch_add (w : World) (tu n : Nat) : Nat × World :=
  (w.s_lockCounter tu,
   { w with s_lockCounter := fun u =>
       if u = tu then (w.s_lockCounter tu + n) % 2 ^ 64 else w.s_lockCounter u })

/-- The call `GetThreadHandle()`. -/
def GetThreadHandle (env : Env) : Nat := env.thread

/-- The call `Profiler::GetTime( cpu )`: the next clock reading. -/
def GetTime (env : Env) (w : World) : Int × World :=
  (env.GetTime w.clockReads,
   { w with clockReads := w.clockReads + 1,
            history := w.history ++ [Effect.clock (env.GetTime w.clockReads)] })

/-- Modelled from the spec: `token->enqueue_begin<CanAlloc>( magic )` of the
queue header, which is outside the two files embedded here (section 4.2, step 1:
reserve a slot and obtain its sequence number). `magic` is the current tail. -/
def enqueue_begin (w : World) : Nat := w.tail

/-- The writes `item->... = ...` into the reserved slot `magic`, followed by
`tail.store( magic + 1, release )`, which publishes the slot (section 4.2,
steps 2 and 3). -/
def tail_store (w : World) (magic : Nat) (item : QueueItem) : World :=
  { w with slots := w.slots.take magic ++ [item],
           tail := magic + 1,
           history := w.history ++ [Effect.publish item] }

/-- The call `m_lockable.lock()`. -/
def call_lock {σ : Type} (R : Resource σ) (self : Lockable σ) (w : World) :
    Lockable σ × World :=
  ({ self with m_lockable := R.lock self.m_lockable },
   { w with history := w.history ++ [Effect.resLock self.addr] })

/-- The call `m_lockable.unlock()`. -/
def call_unlock {σ : Type} (R : Resource σ) (self : Lockable σ) (w : World) :
    Lockable σ × World :=
  ({ self with m_lockable := R.unlock self.m_lockable },
   { w with history := w.history ++ [Effect.resUnlock self.addr] })

/-- The call `m_lockable.try_lock()`: the returned flag, the wrapper and the
world. -/
def call_try_lock {σ : Type} (R : Resource σ) (self : Lockable σ) (w : World) :
    Bool × Lockable σ × World :=
  ((R.try_lock self.m_lockable).1,
   { self with m_lockable := (R.try_lock self.m_lockable).2 },
   { w with history :=
       w.history ++ [Effect.resTryLock self.addr (R.try_lock self.m_lockable).1] })

/-! ## The methods of `Lockable<T>` -/

namespace Lockable

/-- The constructor `Lockable( const SourceLocation* srcloc )`, called from
translation unit `tu`, building the object whose member `m_lockable` lives at
address `addr`. -/
def new {σ : Type} (R : Resource σ) (tu srcloc addr : Nat) (w : World) :
    Lockable σ × World :=
  let r := fetch_add w tu 1
  let self : Lockable σ := { m_lockable := R.init, m_id := r.1, addr := addr }
  let magic := enqueue_begin r.2
  (self, tail_store r.2 magic (QueueItem.lockAnnounce self.m_id srcloc))

/-- The method `lock()`. -/
def lock {σ : Type} (R : Resource σ) (env : Env) (self : Lockable σ) (w : World) :
    Lockable σ × World :=
  let thread := GetThreadHandle env
  let magic := enqueue_begin w
  let t := GetTime env w
  let w1 := tail_store t.2 magic (QueueItem.lockWait self.m_id thread t.1)
  let r := call_lock R self w1
  let magic2 := enqueue_begin r.2
  let t2 := GetTime env r.2
  (r.1, tail_store t2.2 magic2 (QueueItem.lockObtain r.1.m_id thread t2.1))

/-- The method `unlock()`. -/
def unlock {σ : Type} (R : Resource σ) (env : Env) (self : Lockable σ) (w : World) :
    Lockable σ × World :=
  let r := call_unlock R self w
  let magic := enqueue_begin r.2
  let thread := GetThreadHandle env
  let t := GetTime env r.2
  (r.1, tail_store t.2 magic (QueueItem.lockRelease r.1.m_id thread t.1))

/-- The method `try_lock()`: the returned flag, the wrapper and the world. -/
def try_lock {σ : Type} (R : Resource σ) (env : Env) (self : Lockable σ) (w : World) :
    Bool × Lockable σ × World :=
  let r := call_try_lock R self w
  if r.1 then
    let magic := enqueue_begin r.2.2
    let thread := GetThreadHandle env
    let t := GetTime env r.2.2
    (r.1, r.2.1, tail_store t.2 magic (QueueItem.lockObtain r.2.1.addr thread t.1))
  else
    (r.1, r.2.1, r.2.2)

/-- The method `Mark( const SourceLocation* srcloc ) const`. -/
def Mark {σ : Type} (env : Env) (self : Lockable σ) (srcloc : Nat) (w : World) :
    World :=
  let magic := enqueue_begin w
  tail_store w magic (QueueItem.lockMark self.m_id (GetThreadHandle env) srcloc)

end Lockable

/-! ## Programs that use wrappers

A producer thread runs a sequence of operations: it constructs wrappers, each
from some translation unit, and calls their methods. Wrappers are referred to
by the order of construction:
handle `h` is the wrapper built by construction number `h` (counting from 0).
A call through a handle that has not been constructed yet is not a call on any
object and leaves the state as it is. -/

/-- One operation of the instrumented program. -/
inductive Op where
  | construct (tu srcloc addr : Nat)
  | lock (h : Nat)
  | unlock (h : Nat)
  | try_lock (h : Nat)
  | Mark (h srcloc : Nat)
  deriving DecidableEq

/-- The producer's state: the shared world, the wrappers constructed so far
in construction order, and the flags returned by the `try_lock` calls. -/
structure System (σ : Type) where
  world : World
  objs : List (Lockable σ)
  rets : List Bool

/-- Nothing constructed yet, fresh world. -/
def System.fresh {σ : Type} : System σ :=
  { world := World.fresh, objs := [], rets := [] }

/-- Execute one operation. -/
def step {σ : Type} (R : Resource σ) (env : Env) (s : System σ) : Op → System σ
  | Op.construct tu srcloc addr =>
      { s with world := (Lockable.new R tu srcloc addr s.world).2,
               objs := s.objs ++ [(Lockable.new R tu srcloc addr s.world).1] }
  | Op.lock h =>
      match s.objs[h]? with
      | none => s
      | some self =>
          { s with world := (Lockable.lock R env self s.world).2,
                   objs := s.objs.set h (Lockable.lock R env self s.world).1 }
  | Op.unlock h =>
      match s.objs[h]? with
      | none => s
      | some self =>
          { s with world := (Lockable.unlock R env self s.world).2,
                   objs := s.objs.set h (Lockable.unlock R env self s.world).1 }
  | Op.try_lock h =>
      match s.objs[h]? with
      | none => s
      | some self =>
          { world := (Lockable.try_lock R env self s.world).2.2,
            objs := s.objs.set h (Lockable.try_lock R env self s.world).2.1,
            rets := s.rets ++ [(Lockable.try_lock R env self s.world).1] }
  | Op.Mark h srcloc =>
      match s.objs[h]? with
      | none => s
      | some self => { s with world := Lockable.Mark env self srcloc s.world }

/-- Execute a sequence of operations, first to last. -/
def run {σ : Type} (R : Resource σ) (env : Env) (s : System σ) (ops : List Op) :
    System σ :=
  ops.foldl (step R env) s

/-- Number of constructions in a sequence of operations. -/
def constructions : List Op → Nat
  | [] => 0
  | Op.construct _ _ _ :: r => constructions r + 1
  | _ :: r => constructions r

/-- The translation units from which the constructions of a program are made,
in program order. -/
def units : List Op → List Nat
  | [] => []
  | Op.construct tu _ _ :: r => tu :: units r
  | _ :: r => units r

/-- The ids assigned to the wrappers, in construction order. -/
def System.ids {σ : Type} (s : System σ) : List Nat := s.objs.map Lockable.m_id

/-! ## Calls on one wrapper, and the same calls made on the resource itself -/

/-- A call on a wrapper. -/
inductive Call where
  | lock
  | unlock
  | try_lock
  | Mark (srcloc : Nat)
  deriving DecidableEq

/-- A call on the wrapped resource. -/
inductive ResCall where
  | lock
  | unlock
  | try_lock
  deriving DecidableEq

/-- Execute one call on a wrapper; the returned flags of `try_lock` are
collected in the third component. -/
def Lockable.call {σ : Type} (R : Resource σ) (env : Env)
    (st : Lockable σ × World × List Bool) : Call → Lockable σ × World × List Bool
  | Call.lock => ((Lockable.lock R env st.1 st.2.1).1, (Lockable.lock R env st.1 st.2.1).2, st.2.2)
  | Call.unlock =>
      ((Lockable.unlock R env st.1 st.2.1).1, (Lockable.unlock R env st.1 st.2.1).2, st.2.2)
  | Call.try_lock =>
      ((Lockable.try_lock R env st.1 st.2.1).2.1, (Lockable.try_lock R env st.1 st.2.1).2.2,
       st.2.2 ++ [(Lockable.try_lock R env st.1 st.2.1).1])
  | Call.Mark srcloc => (st.1, Lockable.Mark env st.1 srcloc st.2.1, st.2.2)

/-- Execute a sequence of calls on a wrapper. -/
def Lockable.calls {σ : Type} (R : Resource σ) (env : Env)
    (st : Lockable σ × World × List Bool) (cs : List Call) :
    Lockable σ × World × List Bool :=
  cs.foldl (Lockable.call R env) st

/-- The call a wrapper call is expected to forward to the resource:
one `lock` per `lock`, one `unlock` per `unlock`, one `try_lock` per
`try_lock`, nothing for `Mark`. -/
def forwarded : Call → Option ResCall
  | Call.lock => some ResCall.lock
  | Call.unlock => some ResCall.unlock
  | Call.try_lock => some ResCall.try_lock
  | Call.Mark _ => none

/-- One call made directly on the resource, without any wrapper; the returned
flags of `try_lock` are collected in the second component. -/
def Resource.direct {σ : Type} (R : Resource σ) (st : σ × List Bool) :
    ResCall → σ × List Bool
  | ResCall.lock => (R.lock st.1, st.2)
  | ResCall.unlock => (R.unlock st.1, st.2)
  | ResCall.try_lock => ((R.try_lock st.1).2, st.2 ++ [(R.try_lock st.1).1])

/-- A sequence of calls made directly on the resource. -/
def Resource.directRun {σ : Type} (R : Resource σ) (st : σ × List Bool)
    (cs : List ResCall) : σ × List Bool :=
  cs.foldl R.direct st

/-- The resource call recorded by an effect of the history, with the address
of the resource it was made on. -/
def Effect.resCall : Effect → Option (Nat × ResCall)
  | Effect.resLock a => some (a, ResCall.lock)
  | Effect.resUnlock a => some (a, ResCall.unlock)
  | Effect.resTryLock a _ => some (a, ResCall.try_lock)
  | Effect.clock _ => none
  | Effect.publish _ => none

/-- The calls made on wrapped resources, in order, as recorded by a history. -/
def resCalls (h : List Effect) : List (Nat × ResCall) := h.filterMap Effect.resCall

/-! ## Event streams -/

/-- The `id` field of an event. -/
def QueueItem.id : QueueItem → Nat
  | QueueItem.lockAnnounce id _ => id
  | QueueItem.lockWait id _ _ => id
  | QueueItem.lockObtain id _ _ => id
  | QueueItem.lockRelease id _ _ => id
  | QueueItem.lockMark id _ _ => id

/-- A plain mutex: the state tells whether it is held. `try_lock` succeeds
exactly when it is free. -/
def mutex : Resource Bool :=
  { init := false
    lock := fun _ => true
    unlock := fun _ => false
    try_lock := fun held => (!held, true) }

/-- Thread handle 1 and a clock whose reading number `k` is `k`. -/
def env0 : Env := { thread := 1, GetTime := fun k => (k : Int) }

/-! ## Basic facts about the primitive steps -/

theorem take_append_singleton_take {α : Type} (l : List α) (n : Nat) (x : α) :
    (l.take n ++ [x]).take (n + 1) = l.take n ++ [x] := by
  apply List.take_of_length_le
  simp only [List.length_append, List.length_take, List.length_singleton]
  omega

theorem published_tail_store (w : World) (item : QueueItem) :
    (tail_store w (enqueue_begin w) item).published = w.published ++ [item] := by
  simp only [tail_store, enqueue_begin, World.published]
  exact take_append_singleton_take w.slots w.tail item

theorem published_GetTime (env : Env) (w : World) :
    (GetTime env w).2.published = w.published := rfl

theorem published_new {σ : Type} (R : Resource σ) (tu srcloc addr : Nat) (w : World) :
    (Lockable.new R tu srcloc addr w).2.published
      = w.published ++ [QueueItem.lockAnnounce (w.s_lockCounter tu) srcloc] := by
  simp only [Lockable.new, tail_store, enqueue_begin, World.published, fetch_add]
  exact take_append_singleton_take w.slots w.tail _

theorem published_lock {σ : Type} (R : Resource σ) (env : Env) (self : Lockable σ)
    (w : World) :
    (Lockable.lock R env self w).2.published
      = w.published ++
          [QueueItem.lockWait self.m_id env.thread (env.GetTime w.clockReads),
           QueueItem.lockObtain self.m_id env.thread (env.GetTime (w.clockReads + 1))] := by
  simp only [Lockable.lock, tail_store, enqueue_begin, World.published, GetTime, call_lock,
    GetThreadHandle]
  rw [take_append_singleton_take, take_append_singleton_take]
  simp

theorem published_unlock {σ : Type} (R : Resource σ) (env : Env) (self : Lockable σ)
    (w : World) :
    (Lockable.unlock R env self w).2.published
      = w.published ++
          [QueueItem.lockRelease self.m_id env.thread (env.GetTime w.clockReads)] := by
  simp only [Lockable.unlock, tail_store, enqueue_begin, World.published, GetTime,
    call_unlock, GetThreadHandle]
  exact take_append_singleton_take w.slots w.tail _

theorem published_try_lock {σ : Type} (R : Resource σ) (env : Env) (self : Lockable σ)
    (w : World) :
    (Lockable.try_lock R env self w).2.2.published
      = if (R.try_lock self.m_lockable).1 then
          w.published ++
            [QueueItem.lockObtain self.addr env.thread (env.GetTime w.clockReads)]
        else w.published := by
  unfold Lockable.try_lock
  cases h : (R.try_lock self.m_lockable).1
  · simp [call_try_lock, h, World.published]
  · simp only [call_try_lock, h, if_true, tail_store, enqueue_begin, World.published, GetTime,
      GetThreadHandle]
    exact take_append_singleton_take w.slots w.tail _

theorem published_Mark {σ : Type} (env : Env) (self : Lockable σ) (srcloc : Nat)
    (w : World) :
    (Lockable.Mark env self srcloc w).published
      = w.published ++ [QueueItem.lockMark self.m_id env.thread srcloc] := by
  simp only [Lockable.Mark, tail_store, enqueue_begin, World.published, GetThreadHandle]
  exact take_append_singleton_take w.slots w.tail _

/-! ## The frame-size constants -/

/-- C10: the target frame size is at least half of the 64 KiB window of the
compressor, `2 * TargetFrameSize >= 64 * 1024`, which is the second static
assertion of the header. -/
theorem C10_two_frames_cover_window :
    2 * TargetFrameSize ≥ 64 * 1024 ∧ static_assert_streamBuffer = true := by
  constructor <;> decide

/-- C4: whatever the LZ4 maximum input size is, `LZ4Size` is at most 65535, the
largest `lz4sz_t`, so the first static assertion holds; when the target frame
size is not above the maximum input size `LZ4Size` is `64000 + 64000/255 + 16
= 64266`; and every length up to `LZ4Size` is stored in an `lz4sz_t`
unchanged. -/
theorem C4_LZ4Size_fits_lz4sz (maxInput n : Nat)
    (hmax : TargetFrameSize ≤ maxInput) (hn : n ≤ LZ4Size maxInput) :
    LZ4Size maxInput = TargetFrameSize + TargetFrameSize / 255 + 16
      ∧ LZ4Size maxInput = 64266
      ∧ LZ4Size maxInput ≤ lz4sz_max
      ∧ lz4sz_max = 65535
      ∧ static_assert_LZ4Size maxInput = true
      ∧ to_lz4sz n = n := by
  have h1 : LZ4Size maxInput = 64266 := by
    unfold LZ4Size LZ4_COMPRESSBOUND
    rw [if_neg (by omega)]
    decide
  have h2 : lz4sz_max = 65535 := by decide
  refine ⟨?_, h1, ?_, h2, ?_, ?_⟩
  · rw [h1]; decide
  · rw [h1, h2]; omega
  · unfold static_assert_LZ4Size
    rw [h1, h2]; decide
  · unfold to_lz4sz
    rw [h1] at hn
    omega

/-- Witness for C4 with the maximum input size of LZ4, `0x7E000000`, and the
length `64266`. -/
theorem C4_LZ4Size_fits_lz4sz_witness :
    LZ4Size 0x7E000000 = 64266 ∧ to_lz4sz 64266 = 64266 :=
  have h := C4_LZ4Size_fits_lz4sz 0x7E000000 64266 (by decide) (by decide)
  ⟨h.2.1, h.2.2.2.2.2⟩

/-! ## The methods one by one -/

/-- C3: from the fresh state (counter 0, empty queue), constructing one wrapper
(from any translation unit) and then calling `lock()` and `unlock()` on thread
`env.thread`, where the clock reads `env.GetTime 0` at the wait,
`env.GetTime 1` at the obtain and `env.GetTime 2` at the release, leaves
exactly the four events `LockAnnounce(0, srcloc)`, `LockWait`, `LockObtain`,
`LockRelease` in the queue, in that order, all visible, and moves the tail
index from 0 to 4. -/
theorem C3_construct_lock_unlock {σ : Type} (R : Resource σ) (env : Env)
    (tu srcloc addr : Nat) :
    (Lockable.unlock R env
        (Lockable.lock R env (Lockable.new R tu srcloc addr World.fresh).1
          (Lockable.new R tu srcloc addr World.fresh).2).1
        (Lockable.lock R env (Lockable.new R tu srcloc addr World.fresh).1
          (Lockable.new R tu srcloc addr World.fresh).2).2).2.slots
      = [QueueItem.lockAnnounce 0 srcloc,
         QueueItem.lockWait 0 env.thread (env.GetTime 0),
         QueueItem.lockObtain 0 env.thread (env.GetTime 1),
         QueueItem.lockRelease 0 env.thread (env.GetTime 2)]
    ∧ (Lockable.unlock R env
        (Lockable.lock R env (Lockable.new R tu srcloc addr World.fresh).1
          (Lockable.new R tu srcloc addr World.fresh).2).1
        (Lockable.lock R env (Lockable.new R tu srcloc addr World.fresh).1
          (Lockable.new R tu srcloc addr World.fresh).2).2).2.published
      = [QueueItem.lockAnnounce 0 srcloc,
         QueueItem.lockWait 0 env.thread (env.GetTime 0),
         QueueItem.lockObtain 0 env.thread (env.GetTime 1),
         QueueItem.lockRelease 0 env.thread (env.GetTime 2)]
    ∧ World.fresh.tail = 0
    ∧ (Lockable.unlock R env
        (Lockable.lock R env (Lockable.new R tu srcloc addr World.fresh).1
          (Lockable.new R tu srcloc addr World.fresh).2).1
        (Lockable.lock R env (Lockable.new R tu srcloc addr World.fresh).1
          (Lockable.new R tu srcloc addr World.fresh).2).2).2.tail = 4 := by
  refine ⟨rfl, rfl, rfl, rfl⟩

/-- C5: for every clock, `lock()` reads the clock and publishes `LockWait` with
the id of the wrapper, then calls `lock()` of the wrapped resource exactly
once, then reads the clock again and publishes `LockObtain` with the same id;
nothing else happens, and both events carry the thread handle of the caller.
When the clock is monotonic, the time of the obtain is not before the time of
the wait, so their difference is a non-negative wait duration. -/
theorem C5_lock_brackets_wait {σ : Type} (R : Resource σ) (env : Env)
    (self : Lockable σ) (w : World) :
    (Lockable.lock R env self w).2.history
      = w.history ++
          [Effect.clock (env.GetTime w.clockReads),
           Effect.publish
             (QueueItem.lockWait self.m_id env.thread (env.GetTime w.clockReads)),
           Effect.resLock self.addr,
           Effect.clock (env.GetTime (w.clockReads + 1)),
           Effect.publish
             (QueueItem.lockObtain self.m_id env.thread (env.GetTime (w.clockReads + 1)))]
    ∧ (Lockable.lock R env self w).2.published
      = w.published ++
          [QueueItem.lockWait self.m_id env.thread (env.GetTime w.clockReads),
           QueueItem.lockObtain self.m_id env.thread (env.GetTime (w.clockReads + 1))]
    ∧ (Lockable.lock R env self w).2.tail = w.tail + 2
    ∧ (Lockable.lock R env self w).1.m_lockable = R.lock self.m_lockable
    ∧ (Monotone env.GetTime →
        env.GetTime w.clockReads ≤ env.GetTime (w.clockReads + 1)
        ∧ 0 ≤ env.GetTime (w.clockReads + 1) - env.GetTime w.clockReads) := by
  refine ⟨?_, published_lock R env self w, rfl, rfl, ?_⟩
  · simp [Lockable.lock, tail_store, GetTime, call_lock, GetThreadHandle]
  · intro hmono
    have ht : env.GetTime w.clockReads ≤ env.GetTime (w.clockReads + 1) :=
      hmono (Nat.le_succ _)
    exact ⟨ht, by omega⟩

/-- Witness for C5: the plain mutex under the clock `env0`, whose readings
0, 1, 2, ... are monotonic, locked from the fresh world: the wait is stamped
0 and the obtain 1. -/
theorem C5_lock_brackets_wait_witness :
    Monotone env0.GetTime
    ∧ (Lockable.lock mutex env0 ⟨false, 0, 4096⟩ World.fresh).2.published
        = [QueueItem.lockWait 0 1 0, QueueItem.lockObtain 0 1 1]
    ∧ env0.GetTime World.fresh.clockReads ≤ env0.GetTime (World.fresh.clockReads + 1) :=
  have hm : Monotone env0.GetTime := fun _ _ h => Int.ofNat_le.mpr h
  ⟨hm, (C5_lock_brackets_wait mutex env0 ⟨false, 0, 4096⟩ World.fresh).2.1,
   ((C5_lock_brackets_wait mutex env0 ⟨false, 0, 4096⟩ World.fresh).2.2.2.2 hm).1⟩

/-- C6: `try_lock()` calls `try_lock()` of the wrapped resource exactly once and
returns its flag. When the flag is false nothing is published: slots, tail and
visible queue are unchanged. When it is true exactly one `LockObtain` is
published, with the thread handle of the caller and the current clock reading,
and its id field is the address of the wrapped resource, not `m_id`. -/
theorem C6_try_lock {σ : Type} (R : Resource σ) (env : Env) (self : Lockable σ)
    (w : World) :
    (Lockable.try_lock R env self w).1 = (R.try_lock self.m_lockable).1
    ∧ (Lockable.try_lock R env self w).2.1.m_lockable = (R.try_lock self.m_lockable).2
    ∧ resCalls (Lockable.try_lock R env self w).2.2.history
        = resCalls w.history ++ [(self.addr, ResCall.try_lock)]
    ∧ (Lockable.try_lock R env self w).2.2.history
        = (if (R.try_lock self.m_lockable).1 then
            w.history ++
              [Effect.resTryLock self.addr true,
               Effect.clock (env.GetTime w.clockReads),
               Effect.publish
                 (QueueItem.lockObtain self.addr env.thread (env.GetTime w.clockReads))]
          else w.history ++ [Effect.resTryLock self.addr false])
    ∧ (Lockable.try_lock R env self w).2.2.slots
        = (if (R.try_lock self.m_lockable).1 then
            w.slots.take w.tail ++
              [QueueItem.lockObtain self.addr env.thread (env.GetTime w.clockReads)]
          else w.slots)
    ∧ (Lockable.try_lock R env self w).2.2.tail
        = (if (R.try_lock self.m_lockable).1 then w.tail + 1 else w.tail)
    ∧ (Lockable.try_lock R env self w).2.2.published
        = (if (R.try_lock self.m_lockable).1 then
            w.published ++
              [QueueItem.lockObtain self.addr env.thread (env.GetTime w.clockReads)]
          else w.published) := by
  refine ⟨?_, ?_, ?_, ?_, ?_, ?_, published_try_lock R env self w⟩
  all_goals
    unfold Lockable.try_lock
    cases h : (R.try_lock self.m_lockable).1 <;>
      simp [call_try_lock, h, tail_store, enqueue_begin, GetTime, GetThreadHandle, resCalls,
        Effect.resCall, List.filterMap_append]

/-- C7: `unlock()` first calls `unlock()` of the wrapped resource, exactly once,
then reads the clock and publishes exactly one `LockRelease` with the id of the
wrapper, the thread handle of the caller and that clock reading; nothing is
published before the call on the resource. -/
theorem C7_unlock_then_release {σ : Type} (R : Resource σ) (env : Env)
    (self : Lockable σ) (w : World) :
    (Lockable.unlock R env self w).2.history
      = w.history ++
          [Effect.resUnlock self.addr,
           Effect.clock (env.GetTime w.clockReads),
           Effect.publish
             (QueueItem.lockRelease self.m_id env.thread (env.GetTime w.clockReads))]
    ∧ (Lockable.unlock R env self w).2.published
      = w.published ++
          [QueueItem.lockRelease self.m_id env.thread (env.GetTime w.clockReads)]
    ∧ (Lockable.unlock R env self w).2.tail = w.tail + 1
    ∧ (Lockable.unlock R env self w).1.m_lockable = R.unlock self.m_lockable := by
  refine ⟨?_, published_unlock R env self w, rfl, rfl⟩
  simp [Lockable.unlock, tail_store, GetTime, call_unlock, GetThreadHandle]

/-! ## Transparency of the wrapper -/

theorem call_forwards {σ : Type} (R : Resource σ) (env : Env)
    (st : Lockable σ × World × List Bool) (c : Call) :
    (Lockable.call R env st c).1.addr = st.1.addr
    ∧ (Lockable.call R env st c).1.m_id = st.1.m_id
    ∧ (Lockable.call R env st c).2.1.s_lockCounter = st.2.1.s_lockCounter
    ∧ ((Lockable.call R env st c).1.m_lockable, (Lockable.call R env st c).2.2)
        = (match forwarded c with
           | none => (st.1.m_lockable, st.2.2)
           | some rc => R.direct (st.1.m_lockable, st.2.2) rc)
    ∧ resCalls (Lockable.call R env st c).2.1.history
        = resCalls st.2.1.history
            ++ (match forwarded c with
                | none => []
                | some rc => [(st.1.addr, rc)]) := by
  cases c with
  | lock =>
      simp [Lockable.call, Lockable.lock, forwarded, Resource.direct, call_lock, tail_store,
        GetTime, resCalls, Effect.resCall, List.filterMap_append]
  | unlock =>
      simp [Lockable.call, Lockable.unlock, forwarded, Resource.direct, call_unlock,
        tail_store, GetTime, resCalls, Effect.resCall, List.filterMap_append]
  | try_lock =>
      simp only [Lockable.call, Lockable.try_lock, forwarded, Resource.direct]
      cases h : (R.try_lock st.1.m_lockable).1 <;>
        simp [call_try_lock, h, tail_store, GetTime, resCalls, Effect.resCall,
          List.filterMap_append]
  | Mark srcloc =>
      simp [Lockable.call, Lockable.Mark, forwarded, tail_store, resCalls, Effect.resCall,
        List.filterMap_append]

theorem calls_forward {σ : Type} (R : Resource σ) (env : Env) (cs : List Call) :
    ∀ st : Lockable σ × World × List Bool,
      (Lockable.calls R env st cs).1.addr = st.1.addr
      ∧ (Lockable.calls R env st cs).1.m_id = st.1.m_id
      ∧ (Lockable.calls R env st cs).2.1.s_lockCounter = st.2.1.s_lockCounter
      ∧ ((Lockable.calls R env st cs).1.m_lockable, (Lockable.calls R env st cs).2.2)
          = R.directRun (st.1.m_lockable, st.2.2) (cs.filterMap forwarded)
      ∧ resCalls (Lockable.calls R env st cs).2.1.history
          = resCalls st.2.1.history
              ++ (cs.filterMap forwarded).map (fun rc => (st.1.addr, rc)) := by
  induction cs with
  | nil => intro st; simp [Lockable.calls, Resource.directRun]
  | cons c r ih =>
      intro st
      obtain ⟨ha, hi, hc, hd, hh⟩ := call_forwards R env st c
      obtain ⟨ha2, hi2, hc2, hd2, hh2⟩ := ih (Lockable.call R env st c)
      have hstep : Lockable.calls R env st (c :: r)
          = Lockable.calls R env (Lockable.call R env st c) r := rfl
      rw [hstep]
      refine ⟨ha2.trans ha, hi2.trans hi, hc2.trans hc, ?_, ?_⟩
      · rw [hd2, hd]
        cases hf : forwarded c <;> simp [hf, Resource.directRun]
      · rw [hh2, hh, ha]
        cases hf : forwarded c <;> simp [hf]

/-- C8: for every resource and every sequence of wrapper calls (`lock`,
`unlock`, `try_lock`, `Mark`), the calls made on the wrapped resource are
exactly that sequence with the `Mark` calls removed, all made on the resource
of this wrapper; the final state of the resource and the flags returned by the
`try_lock` calls are those obtained by making these calls on the resource
directly; and construction makes no call on the resource. -/
theorem C8_wrapper_transparent {σ : Type} (R : Resource σ) (env : Env)
    (self : Lockable σ) (w : World) (cs : List Call) (tu srcloc addr : Nat) :
    resCalls (Lockable.calls R env (self, w, []) cs).2.1.history
        = resCalls w.history ++ (cs.filterMap forwarded).map (fun rc => (self.addr, rc))
    ∧ (Lockable.calls R env (self, w, []) cs).1.m_lockable
        = (R.directRun (self.m_lockable, []) (cs.filterMap forwarded)).1
    ∧ (Lockable.calls R env (self, w, []) cs).2.2
        = (R.directRun (self.m_lockable, []) (cs.filterMap forwarded)).2
    ∧ resCalls (Lockable.new R tu srcloc addr w).2.history = resCalls w.history
    ∧ (Lockable.new R tu srcloc addr w).1.m_lockable = R.init := by
  obtain ⟨_, _, _, hd, hh⟩ := calls_forward R env cs (self, w, [])
  refine ⟨hh, congrArg Prod.fst hd, congrArg Prod.snd hd, ?_, rfl⟩
  simp [Lockable.new, tail_store, fetch_add, resCalls, Effect.resCall, List.filterMap_append]

/-! ## One step of a program -/

theorem map_set_of_getElem? {α β : Type} (f : α → β) (l : List α) (h : Nat) (a b : α)
    (hget : l[h]? = some a) (hf : f b = f a) : (l.set h b).map f = l.map f := by
  induction l generalizing h with
  | nil => simp
  | cons x r ih =>
      cases h with
      | zero =>
          simp only [List.getElem?_cons_zero, Option.some.injEq] at hget
          simp [List.set, hf, hget]
      | succ k =>
          simp only [List.getElem?_cons_succ] at hget
          simp [List.set, ih k hget]

theorem run_cons {σ : Type} (R : Resource σ) (env : Env) (s : System σ) (op : Op)
    (ops : List Op) : run R env s (op :: ops) = run R env (step R env s op) ops := rfl

theorem run_append {σ : Type} (R : Resource σ) (env : Env) (s : System σ)
    (ops1 ops2 : List Op) :
    run R env s (ops1 ++ ops2) = run R env (run R env s ops1) ops2 := by
  simp [run, List.foldl_append]

theorem step_construct {σ : Type} (R : Resource σ) (env : Env) (s : System σ)
    (tu srcloc a : Nat) :
    (step R env s (Op.construct tu srcloc a)).ids = s.ids ++ [s.world.s_lockCounter tu]
    ∧ (step R env s (Op.construct tu srcloc a)).world.s_lockCounter
        = (fun u => if u = tu then (s.world.s_lockCounter tu + 1) % 2 ^ 64
            else s.world.s_lockCounter u)
    ∧ (step R env s (Op.construct tu srcloc a)).objs.map Lockable.addr
        = s.objs.map Lockable.addr ++ [a]
    ∧ (step R env s (Op.construct tu srcloc a)).world.published
        = s.world.published ++ [QueueItem.lockAnnounce (s.world.s_lockCounter tu) srcloc] := by
  refine ⟨?_, rfl, ?_, published_new R tu srcloc a s.world⟩
  · simp [step, System.ids, Lockable.new, fetch_add]
  · simp [step, Lockable.new]

theorem step_lock_none {σ : Type} (R : Resource σ) (env : Env) (s : System σ) (h : Nat)
    (hget : s.objs[h]? = none) : step R env s (Op.lock h) = s := by
  simp [step, hget]

theorem step_unlock_none {σ : Type} (R : Resource σ) (env : Env) (s : System σ) (h : Nat)
    (hget : s.objs[h]? = none) : step R env s (Op.unlock h) = s := by
  simp [step, hget]

theorem step_try_lock_none {σ : Type} (R : Resource σ) (env : Env) (s : System σ) (h : Nat)
    (hget : s.objs[h]? = none) : step R env s (Op.try_lock h) = s := by
  simp [step, hget]

theorem step_Mark_none {σ : Type} (R : Resource σ) (env : Env) (s : System σ)
    (h srcloc : Nat) (hget : s.objs[h]? = none) : step R env s (Op.Mark h srcloc) = s := by
  simp [step, hget]

theorem step_lock_some {σ : Type} (R : Resource σ) (env : Env) (s : System σ) (h : Nat)
    (self : Lockable σ) (hget : s.objs[h]? = some self) :
    (step R env s (Op.lock h)).ids = s.ids
    ∧ (step R env s (Op.lock h)).world.s_lockCounter = s.world.s_lockCounter
    ∧ (step R env s (Op.lock h)).objs.map Lockable.addr = s.objs.map Lockable.addr
    ∧ (step R env s (Op.lock h)).world.published
        = s.world.published ++
            [QueueItem.lockWait self.m_id env.thread (env.GetTime s.world.clockReads),
             QueueItem.lockObtain self.m_id env.thread
               (env.GetTime (s.world.clockReads + 1))] := by
  have hstep : step R env s (Op.lock h)
      = { s with world := (Lockable.lock R env self s.world).2,
                 objs := s.objs.set h (Lockable.lock R env self s.world).1 } := by
    simp [step, hget]
  rw [hstep]
  exact ⟨map_set_of_getElem? _ _ _ _ _ hget rfl, rfl, map_set_of_getElem? _ _ _ _ _ hget rfl,
    published_lock R env self s.world⟩

theorem step_unlock_some {σ : Type} (R : Resource σ) (env : Env) (s : System σ) (h : Nat)
    (self : Lockable σ) (hget : s.objs[h]? = some self) :
    (step R env s (Op.unlock h)).ids = s.ids
    ∧ (step R env s (Op.unlock h)).world.s_lockCounter = s.world.s_lockCounter
    ∧ (step R env s (Op.unlock h)).objs.map Lockable.addr = s.objs.map Lockable.addr
    ∧ (step R env s (Op.unlock h)).world.published
        = s.world.published ++
            [QueueItem.lockRelease self.m_id env.thread
               (env.GetTime s.world.clockReads)] := by
  have hstep : step R env s (Op.unlock h)
      = { s with world := (Lockable.unlock R env self s.world).2,
                 objs := s.objs.set h (Lockable.unlock R env self s.world).1 } := by
    simp [step, hget]
  rw [hstep]
  exact ⟨map_set_of_getElem? _ _ _ _ _ hget rfl, rfl, map_set_of_getElem? _ _ _ _ _ hget rfl,
    published_unlock R env self s.world⟩

theorem try_lock_keeps {σ : Type} (R : Resource σ) (env : Env) (self : Lockable σ)
    (w : World) :
    (Lockable.try_lock R env self w).2.1.m_id = self.m_id
    ∧ (Lockable.try_lock R env self w).2.1.addr = self.addr
    ∧ (Lockable.try_lock R env self w).2.2.s_lockCounter = w.s_lockCounter := by
  unfold Lockable.try_lock
  cases h : (R.try_lock self.m_lockable).1 <;>
    simp [call_try_lock, h, tail_store, GetTime]

theorem step_try_lock_some {σ : Type} (R : Resource σ) (env : Env) (s : System σ) (h : Nat)
    (self : Lockable σ) (hget : s.objs[h]? = some self) :
    (step R env s (Op.try_lock h)).ids = s.ids
    ∧ (step R env s (Op.try_lock h)).world.s_lockCounter = s.world.s_lockCounter
    ∧ (step R env s (Op.try_lock h)).objs.map Lockable.addr = s.objs.map Lockable.addr
    ∧ (step R env s (Op.try_lock h)).world.published
        = (if (R.try_lock self.m_lockable).1 then
            s.world.published ++
              [QueueItem.lockObtain self.addr env.thread (env.GetTime s.world.clockReads)]
          else s.world.published) := by
  have hstep : step R env s (Op.try_lock h)
      = { world := (Lockable.try_lock R env self s.world).2.2,
          objs := s.objs.set h (Lockable.try_lock R env self s.world).2.1,
          rets := s.rets ++ [(Lockable.try_lock R env self s.world).1] } := by
    simp [step, hget]
  obtain ⟨hi, ha, hc⟩ := try_lock_keeps R env self s.world
  rw [hstep]
  exact ⟨map_set_of_getElem? _ _ _ _ _ hget hi, hc, map_set_of_getElem? _ _ _ _ _ hget ha,
    published_try_lock R env self s.world⟩

theorem step_Mark_some {σ : Type} (R : Resource σ) (env : Env) (s : System σ)
    (h srcloc : Nat) (self : Lockable σ) (hget : s.objs[h]? = some self) :
    (step R env s (Op.Mark h srcloc)).ids = s.ids
    ∧ (step R env s (Op.Mark h srcloc)).world.s_lockCounter = s.world.s_lockCounter
    ∧ (step R env s (Op.Mark h srcloc)).objs.map Lockable.addr = s.objs.map Lockable.addr
    ∧ (step R env s (Op.Mark h srcloc)).world.published
        = s.world.published ++ [QueueItem.lockMark self.m_id env.thread srcloc] := by
  have hstep : step R env s (Op.Mark h srcloc)
      = { s with world := Lockable.Mark env self srcloc s.world } := by
    simp [step, hget]
  rw [hstep]
  exact ⟨rfl, rfl, rfl, published_Mark env self srcloc s.world⟩

/-- Counters and ids are changed by constructions only, and a construction
changes the counter of its own translation unit only. -/
theorem step_ids_counter {σ : Type} (R : Resource σ) (env : Env) (s : System σ) (op : Op) :
    ((step R env s op).ids, (step R env s op).world.s_lockCounter)
      = (match op with
         | Op.construct tu _ _ =>
             (s.ids ++ [s.world.s_lockCounter tu],
              fun u => if u = tu then (s.world.s_lockCounter tu + 1) % 2 ^ 64
                else s.world.s_lockCounter u)
         | _ => (s.ids, s.world.s_lockCounter)) := by
  cases op with
  | construct tu srcloc a =>
      obtain ⟨h1, h2, _, _⟩ := step_construct R env s tu srcloc a
      simp [h1, h2]
  | lock h =>
      cases hget : s.objs[h]? with
      | none => rw [step_lock_none R env s h hget]
      | some self =>
          obtain ⟨h1, h2, _, _⟩ := step_lock_some R env s h self hget
          simp [h1, h2]
  | unlock h =>
      cases hget : s.objs[h]? with
      | none => rw [step_unlock_none R env s h hget]
      | some self =>
          obtain ⟨h1, h2, _, _⟩ := step_unlock_some R env s h self hget
          simp [h1, h2]
  | try_lock h =>
      cases hget : s.objs[h]? with
      | none => rw [step_try_lock_none R env s h hget]
      | some self =>
          obtain ⟨h1, h2, _, _⟩ := step_try_lock_some R env s h self hget
          simp [h1, h2]
  | Mark h srcloc =>
      cases hget : s.objs[h]? with
      | none => rw [step_Mark_none R env s h srcloc hget]
      | some self =>
          obtain ⟨h1, h2, _, _⟩ := step_Mark_some R env s h srcloc self hget
          simp [h1, h2]

/-! ## Assignment of lock ids -/

/-- Within one translation unit `t`, fewer than `2 ^ 64` constructions are
given consecutive ids, starting at the value of the counter of `t`. -/
theorem run_ids {σ : Type} (R : Resource σ) (env : Env) (t : Nat) (ops : List Op) :
    ∀ s : System σ, (∀ u ∈ units ops, u = t) →
      s.world.s_lockCounter t + constructions ops < 2 ^ 64 →
      (run R env s ops).ids
          = s.ids ++ List.range' (s.world.s_lockCounter t) (constructions ops)
      ∧ (run R env s ops).world.s_lockCounter t
          = s.world.s_lockCounter t + constructions ops := by
  induction ops with
  | nil => intro s _ _; simp [run, constructions]
  | cons op r ih =>
      intro s hu hlt
      rw [run_cons]
      have hstep := step_ids_counter R env s op
      cases op with
      | construct tu srcloc a =>
          simp only [constructions, units, List.mem_cons, forall_eq_or_imp] at hlt hu ⊢
          obtain ⟨rfl, hu2⟩ := hu
          simp only [Prod.mk.injEq] at hstep
          have hmod : (s.world.s_lockCounter tu + 1) % 2 ^ 64 = s.world.s_lockCounter tu + 1 :=
            Nat.mod_eq_of_lt (by omega)
          have hc : (step R env s (Op.construct tu srcloc a)).world.s_lockCounter tu
              = s.world.s_lockCounter tu + 1 := by
            rw [hstep.2]
            show (if tu = tu then _ else _) = _
            rw [if_pos rfl, hmod]
          obtain ⟨h1, h2⟩ := ih (step R env s (Op.construct tu srcloc a)) hu2
            (by rw [hc]; omega)
          rw [h1, h2, hstep.1, hc]
          refine ⟨?_, by omega⟩
          rw [List.append_assoc]
          rfl
      | lock h =>
          simp only [constructions, units, Prod.mk.injEq] at hlt hstep hu ⊢
          obtain ⟨h1, h2⟩ := ih (step R env s (Op.lock h)) hu (by rw [hstep.2]; exact hlt)
          rw [h1, h2, hstep.1, hstep.2]; exact ⟨rfl, rfl⟩
      | unlock h =>
          simp only [constructions, units, Prod.mk.injEq] at hlt hstep hu ⊢
          obtain ⟨h1, h2⟩ := ih (step R env s (Op.unlock h)) hu (by rw [hstep.2]; exact hlt)
          rw [h1, h2, hstep.1, hstep.2]; exact ⟨rfl, rfl⟩
      | try_lock h =>
          simp only [constructions, units, Prod.mk.injEq] at hlt hstep hu ⊢
          obtain ⟨h1, h2⟩ := ih (step R env s (Op.try_lock h)) hu
            (by rw [hstep.2]; exact hlt)
          rw [h1, h2, hstep.1, hstep.2]; exact ⟨rfl, rfl⟩
      | Mark h srcloc =>
          simp only [constructions, units, Prod.mk.injEq] at hlt hstep hu ⊢
          obtain ⟨h1, h2⟩ := ih (step R env s (Op.Mark h srcloc)) hu
            (by rw [hstep.2]; exact hlt)
          rw [h1, h2, hstep.1, hstep.2]; exact ⟨rfl, rfl⟩

/-- C2 on the code: two wrappers constructed from two translation units, 0 and
1, that both include the header. Each unit has its own `static` counter,
starting at 0, so both wrappers are given id 0: the ids `[0, 0]` are not
pairwise distinct and are not `0, 1`, and two `LockAnnounce` events with id 0
are published. -/
theorem C2_ids_repeat_across_translation_units {σ : Type} (R : Resource σ) (env : Env)
    (srcloc1 addr1 srcloc2 addr2 : Nat) :
    constructions [Op.construct 0 srcloc1 addr1, Op.construct 1 srcloc2 addr2] = 2
    ∧ (run R env System.fresh
        [Op.construct 0 srcloc1 addr1, Op.construct 1 srcloc2 addr2]).ids = [0, 0]
    ∧ ¬ (run R env System.fresh
        [Op.construct 0 srcloc1 addr1, Op.construct 1 srcloc2 addr2]).ids.Nodup
    ∧ (run R env System.fresh
        [Op.construct 0 srcloc1 addr1, Op.construct 1 srcloc2 addr2]).ids ≠ List.range 2
    ∧ (run R env System.fresh
        [Op.construct 0 srcloc1 addr1, Op.construct 1 srcloc2 addr2]).world.published
      = [QueueItem.lockAnnounce 0 srcloc1, QueueItem.lockAnnounce 0 srcloc2] := by
  have hids : (run R env (System.fresh : System σ)
      [Op.construct 0 srcloc1 addr1, Op.construct 1 srcloc2 addr2]).ids = [0, 0] := rfl
  refine ⟨rfl, hids, ?_, ?_, rfl⟩
  · rw [hids]; decide
  · rw [hids]; decide

/-! ## The stream of one lock -/

theorem run_replicate_construct {σ : Type} (R : Resource σ) (env : Env)
    (tu srcloc a : Nat) (n : Nat) :
    ∀ s : System σ, s.world.s_lockCounter tu + n < 2 ^ 64 →
      (run R env s (List.replicate n (Op.construct tu srcloc a))).world.published
        = s.world.published
            ++ (List.range' (s.world.s_lockCounter tu) n).map
                 (fun k => QueueItem.lockAnnounce k srcloc) := by
  induction n with
  | zero => intro s _; simp [run]
  | succ m ih =>
      intro s hlt
      obtain ⟨_, k2, _, k4⟩ := step_construct R env s tu srcloc a
      have hmod : (s.world.s_lockCounter tu + 1) % 2 ^ 64 = s.world.s_lockCounter tu + 1 :=
        Nat.mod_eq_of_lt (by omega)
      have hc : (step R env s (Op.construct tu srcloc a)).world.s_lockCounter tu
          = s.world.s_lockCounter tu + 1 := by
        rw [k2]
        show (if tu = tu then _ else _) = _
        rw [if_pos rfl, hmod]
      rw [List.replicate_succ, run_cons, ih _ (by rw [hc]; omega), hc, k4,
        List.range'_succ, List.map_cons, List.append_assoc]
      rfl

/-- C9 on the code: let a wrapper be constructed around a resource that lives at
address `a` and whose `try_lock()` succeeds, let `try_lock()` be called on it,
and let `a` further wrappers be constructed, all from the same translation
unit. The first wrapper has id 0, yet the event at position 1 is a
`LockObtain` whose id field is `a`; no `LockAnnounce` of id `a` comes before
it, and the `LockAnnounce` of id `a` comes only at position `a + 1`, after
it. -/
theorem C9_obtain_not_preceded_by_announce {σ : Type} (R : Resource σ) (env : Env)
    (tu a srcloc srcloc2 addr2 : Nat)
    (hsucc : (R.try_lock R.init).1 = true) (ha : 0 < a) (hlt : a + 1 < 2 ^ 64) :
    (run R env System.fresh
        ([Op.construct tu srcloc a, Op.try_lock 0]
          ++ List.replicate a (Op.construct tu srcloc2 addr2))).world.published[0]?
      = some (QueueItem.lockAnnounce 0 srcloc)
    ∧ (run R env System.fresh
        ([Op.construct tu srcloc a, Op.try_lock 0]
          ++ List.replicate a (Op.construct tu srcloc2 addr2))).world.published[1]?
      = some (QueueItem.lockObtain a env.thread (env.GetTime 0))
    ∧ (run R env System.fresh
        ([Op.construct tu srcloc a, Op.try_lock 0]
          ++ List.replicate a (Op.construct tu srcloc2 addr2))).world.published[a + 1]?
      = some (QueueItem.lockAnnounce a srcloc2)
    ∧ 1 < a + 1
    ∧ ∀ j, j < 1 → ∀ sl,
        (run R env System.fresh
          ([Op.construct tu srcloc a, Op.try_lock 0]
            ++ List.replicate a (Op.construct tu srcloc2 addr2))).world.published[j]?
          ≠ some (QueueItem.lockAnnounce a sl) := by
  have hpre : (run R env (System.fresh : System σ)
      [Op.construct tu srcloc a, Op.try_lock 0]).world.published
      = [QueueItem.lockAnnounce 0 srcloc,
         QueueItem.lockObtain a env.thread (env.GetTime 0)] := by
    have h1 := (step_construct R env (System.fresh : System σ) tu srcloc a).2.2.2
    have hget : (step R env (System.fresh : System σ) (Op.construct tu srcloc a)).objs[0]?
        = some ⟨R.init, 0, a⟩ := rfl
    have h2 := (step_try_lock_some R env _ 0 _ hget).2.2.2
    rw [hsucc, if_pos rfl, h1] at h2
    exact h2
  have hcnt : (run R env (System.fresh : System σ)
      [Op.construct tu srcloc a, Op.try_lock 0]).world.s_lockCounter tu = 1 := by
    have h := (run_ids R env tu [Op.construct tu srcloc a, Op.try_lock 0]
      (System.fresh : System σ) (by simp [units])
      (by simp [System.fresh, World.fresh, constructions])).2
    simpa [System.fresh, World.fresh, constructions] using h
  have hall := run_replicate_construct R env tu srcloc2 addr2 a
    (run R env (System.fresh : System σ) [Op.construct tu srcloc a, Op.try_lock 0])
    (by rw [hcnt]; omega)
  rw [← run_append, hpre, hcnt] at hall
  rw [hall]
  refine ⟨by simp, by simp, ?_, by omega, ?_⟩
  · rw [List.getElem?_append_right (by simp; omega), List.getElem?_map]
    have hidx : a + 1 - [QueueItem.lockAnnounce 0 srcloc,
        QueueItem.lockObtain a env.thread (env.GetTime 0)].length = a - 1 := by
      simp
    rw [hidx, List.getElem?_range' 1 1 (by omega : a - 1 < a)]
    simp only [Option.map_some', Option.some.injEq, QueueItem.lockAnnounce.injEq, and_true]
    omega
  · intro j hj sl
    have hj0 : j = 0 := by omega
    subst hj0
    simp only [List.cons_append, List.getElem?_cons_zero, ne_eq, Option.some.injEq,
      QueueItem.lockAnnounce.injEq, not_and]
    intro h0
    omega

/-- Witness for the run of C9: a plain mutex at address 4096, everything
constructed from translation unit 0. -/
theorem C9_obtain_not_preceded_by_announce_witness :
    (mutex.try_lock mutex.init).1 = true
    ∧ (run mutex env0 System.fresh
        ([Op.construct 0 7 4096, Op.try_lock 0]
          ++ List.replicate 4096 (Op.construct 0 8 4160))).world.published[1]?
      = some (QueueItem.lockObtain 4096 1 0)
    ∧ (run mutex env0 System.fresh
        ([Op.construct 0 7 4096, Op.try_lock 0]
          ++ List.replicate 4096 (Op.construct 0 8 4160))).world.published[4096 + 1]?
      = some (QueueItem.lockAnnounce 4096 8) :=
  have h := C9_obtain_not_preceded_by_announce mutex env0 0 4096 7 8 4160 (by decide)
    (by decide) (by decide)
  ⟨by decide, h.2.1, h.2.2.1⟩

end tracy
